import Mathlib

/-!
Verification of the test-run registration/execution pair of this repository:
the Registrar (register_test_command tool: validation + atomic config write,
in the registrar server source) and the Verifier (run_tests tool: config load,
effective command/environment construction, timeout and outcome
classification, in test-verifier-mcp/main.go).

The Go code is embedded shallowly: pure helpers (strings.TrimSpace,
strings.SplitN on "=", validateCommand, validateEnv) become Lean functions on
String / List String; filesystem effects of writeConfig become explicit
state passing over an association-list filesystem with an injected failure
oracle for each fallible OS call; JSON marshalling is modelled at the level
of a JSON value tree (encoding/json is external library code, assumed to
render and re-parse a value tree faithfully); the child-process run is an
oracle describing what exec observed (start error, wait error, deadline),
and the result classification is the embedded code under test.
-/

/-! ## Character / string trimming (strings.TrimSpace) -/

/-- Whitespace predicate used by strings.TrimSpace (unicode.IsSpace): the
ASCII space characters plus NEL and NBSP.  The Go predicate accepts further
Unicode space runes; no claim distinguishes them, and the embedding only
needs the predicate to be used consistently on both trim sides. -/
def goIsSpace (c : Char) : Bool :=
  c = ' ' || c = '\t' || c = '\n' || c = '\r' ||
    c = Char.ofNat 11 || c = Char.ofNat 12 || c = Char.ofNat 0x85 || c = Char.ofNat 0xA0

/-- Drop leading and trailing whitespace from a character list. -/
def trimChars (l : List Char) : List Char :=
  List.rdropWhile goIsSpace (List.dropWhile goIsSpace l)

/-- strings.TrimSpace. -/
def trimSpace (s : String) : String :=
  String.mk (trimChars s.data)

theorem head?_dropWhile_false {α : Type} (p : α → Bool) :
    ∀ (l : List α) (a : α), (l.dropWhile p).head? = some a → p a = false := by
  intro l
  induction l with
  | nil => intro a h; simp [List.dropWhile] at h
  | cons b t ih =>
    intro a h
    by_cases hb : p b
    · rw [List.dropWhile_cons_of_pos hb] at h
      exact ih a h
    · rw [List.dropWhile_cons_of_neg hb] at h
      simp at h
      rw [← h]
      exact Bool.eq_false_iff.mpr hb

theorem dropWhile_eq_self_of_head {α : Type} (p : α → Bool) (l : List α)
    (h : ∀ a, l.head? = some a → p a = false) : l.dropWhile p = l := by
  cases l with
  | nil => rfl
  | cons a t =>
    have ha : p a = false := h a rfl
    simp [List.dropWhile_cons, ha]

theorem trimChars_idem (l : List Char) : trimChars (trimChars l) = trimChars l := by
  unfold trimChars
  have hdw : List.dropWhile goIsSpace
      (List.rdropWhile goIsSpace (List.dropWhile goIsSpace l)) =
      List.rdropWhile goIsSpace (List.dropWhile goIsSpace l) := by
    apply dropWhile_eq_self_of_head
    intro a ha
    obtain ⟨t, ht⟩ := List.rdropWhile_prefix goIsSpace (List.dropWhile goIsSpace l)
    have hne : List.rdropWhile goIsSpace (List.dropWhile goIsSpace l) ≠ [] := by
      intro hnil; rw [hnil] at ha; simp at ha
    have hhead : (List.dropWhile goIsSpace l).head? = some a := by
      rw [← ht]
      cases hc : List.rdropWhile goIsSpace (List.dropWhile goIsSpace l) with
      | nil => exact absurd hc hne
      | cons b s =>
        rw [hc] at ha
        simp at ha
        simp [ha]
    exact head?_dropWhile_false goIsSpace l a hhead
  rw [hdw, List.rdropWhile_idempotent]

theorem trimSpace_trimSpace (s : String) : trimSpace (trimSpace s) = trimSpace s := by
  unfold trimSpace
  exact congrArg String.mk (trimChars_idem s.data)

/-! ## strings.SplitN(s, "=", 2) -/

/-- strings.SplitN with separator "=" and a limit of 2: one element when the
string holds no equals sign, otherwise the part before the first equals sign
and the remainder after it. -/
def splitEq2 (s : String) : List String :=
  match s.data.dropWhile (fun c => c ≠ '=') with
  | [] => [s]
  | _ :: tail => [String.mk (s.data.takeWhile (fun c => c ≠ '=')), String.mk tail]

/-! ## validateCommand / validateEnv (identical in the registrar and the verifier) -/

/-- Loop body of validateCommand: trim each entry, reject a blank entry. -/
def validateCommandLoop : List String → Except String (List String)
  | [] => .ok []
  | part :: rest =>
    let trimmed := trimSpace part
    if trimmed = "" then .error "command entries cannot be empty"
    else
      match validateCommandLoop rest with
      | .ok clean => .ok (trimmed :: clean)
      | .error e => .error e

/-- validateCommand: an empty sequence is an error, and each entry must be
non-blank after trimming; the result is the element-wise trimmed sequence. -/
def validateCommand (command : List String) : Except String (List String) :=
  if command = [] then .error "command must contain at least one element"
  else validateCommandLoop command

/-- Well-formedness of one already-trimmed env entry, as validateEnv checks
it: SplitN(entry, "=", 2) yields two parts and the first part is non-empty. -/
def envEntryOk (t : String) : Bool :=
  (splitEq2 t).length == 2 && !((splitEq2 t).headD "" == "")

/-- Loop body of validateEnv: drop a blank entry, reject an entry without a
proper KEY=VALUE shape, keep the whole trimmed entry. -/
def validateEnvLoop : List String → Except String (List String)
  | [] => .ok []
  | entry :: rest =>
    let trimmed := trimSpace entry
    if trimmed = "" then validateEnvLoop rest
    else if envEntryOk trimmed then
      match validateEnvLoop rest with
      | .ok clean => .ok (trimmed :: clean)
      | .error e => .error e
    else .error ("env entries must be KEY=VALUE, got " ++ entry)

/-- validateEnv: nil input is accepted as nil; otherwise the loop applies. -/
def validateEnv (env : List String) : Except String (List String) :=
  if env = [] then .ok []
  else validateEnvLoop env

/-! ## Properties of the validators -/

theorem validateCommandLoop_ok_map :
    ∀ {cmd l : List String}, validateCommandLoop cmd = .ok l → l = cmd.map trimSpace := by
  intro cmd
  induction cmd with
  | nil => intro l h; simp [validateCommandLoop] at h; simp [h]
  | cons part rest ih =>
    intro l h
    simp only [validateCommandLoop] at h
    by_cases hb : trimSpace part = ""
    · simp [hb] at h
    · rw [if_neg hb] at h
      cases hr : validateCommandLoop rest with
      | ok clean =>
        rw [hr] at h
        simp at h
        rw [← h, ih hr]
        simp
      | error e => rw [hr] at h; simp at h

theorem validateCommandLoop_ok_elems :
    ∀ {cmd l : List String}, validateCommandLoop cmd = .ok l →
      ∀ x ∈ l, trimSpace x = x ∧ x ≠ "" := by
  intro cmd
  induction cmd with
  | nil => intro l h; simp [validateCommandLoop] at h; simp [h]
  | cons part rest ih =>
    intro l h x hx
    simp only [validateCommandLoop] at h
    by_cases hb : trimSpace part = ""
    · simp [hb] at h
    · rw [if_neg hb] at h
      cases hr : validateCommandLoop rest with
      | ok clean =>
        rw [hr] at h
        simp at h
        rw [← h] at hx
        cases hx with
        | head => exact ⟨trimSpace_trimSpace part, hb⟩
        | tail _ hmem => exact ih hr x hmem
      | error e => rw [hr] at h; simp at h

theorem validateCommandLoop_of_clean :
    ∀ {l : List String}, (∀ x ∈ l, trimSpace x = x ∧ x ≠ "") →
      validateCommandLoop l = .ok l := by
  intro l
  induction l with
  | nil => intro _; rfl
  | cons a t ih =>
    intro h
    have ha := h a (by simp)
    have ht := ih (fun x hx => h x (List.mem_cons_of_mem a hx))
    simp only [validateCommandLoop, ha.1, if_neg ha.2, ht]

/-- validateCommand is idempotent on its own successful output. -/
theorem validateCommand_idem {cmd l : List String}
    (h : validateCommand cmd = .ok l) : validateCommand l = .ok l := by
  unfold validateCommand at h ⊢
  by_cases hc : cmd = []
  · simp [hc] at h
  · rw [if_neg hc] at h
    have hmap := validateCommandLoop_ok_map h
    have hne : l ≠ [] := by
      rw [hmap]
      simpa using hc
    rw [if_neg hne]
    exact validateCommandLoop_of_clean (validateCommandLoop_ok_elems h)

theorem validateCommandLoop_error_of_blank :
    ∀ {cmd : List String}, (∃ x ∈ cmd, trimSpace x = "") →
      ∃ e, validateCommandLoop cmd = .error e := by
  intro cmd
  induction cmd with
  | nil => intro h; simp at h
  | cons part rest ih =>
    intro h
    by_cases hb : trimSpace part = ""
    · exact ⟨"command entries cannot be empty", by simp [validateCommandLoop, hb]⟩
    · obtain ⟨x, hx, hxb⟩ := h
      have hxr : x ∈ rest := by
        cases hx with
        | head => exact absurd hxb hb
        | tail _ hmem => exact hmem
      obtain ⟨e, he⟩ := ih ⟨x, hxr, hxb⟩
      exact ⟨e, by simp [validateCommandLoop, if_neg hb, he]⟩

theorem envEntryOk_ne_empty {t : String} (h : envEntryOk t = true) : t ≠ "" := by
  intro ht
  rw [ht] at h
  simp [envEntryOk, splitEq2] at h

theorem validateEnvLoop_ok_elems :
    ∀ {env l : List String}, validateEnvLoop env = .ok l →
      ∀ x ∈ l, trimSpace x = x ∧ envEntryOk x = true := by
  intro env
  induction env with
  | nil => intro l h; simp [validateEnvLoop] at h; simp [h]
  | cons entry rest ih =>
    intro l h x hx
    simp only [validateEnvLoop] at h
    by_cases hb : trimSpace entry = ""
    · rw [if_pos hb] at h
      exact ih h x hx
    · rw [if_neg hb] at h
      by_cases hok : envEntryOk (trimSpace entry) = true
      · rw [if_pos hok] at h
        cases hr : validateEnvLoop rest with
        | ok clean =>
          rw [hr] at h
          simp at h
          rw [← h] at hx
          cases hx with
          | head => exact ⟨trimSpace_trimSpace entry, hok⟩
          | tail _ hmem => exact ih hr x hmem
        | error e => rw [hr] at h; simp at h
      · rw [if_neg hok] at h
        simp at h

theorem validateEnvLoop_of_clean :
    ∀ {l : List String}, (∀ x ∈ l, trimSpace x = x ∧ envEntryOk x = true) →
      validateEnvLoop l = .ok l := by
  intro l
  induction l with
  | nil => intro _; rfl
  | cons a t ih =>
    intro h
    have ha := h a (by simp)
    have ht := ih (fun x hx => h x (List.mem_cons_of_mem a hx))
    simp only [validateEnvLoop, ha.1, if_neg (envEntryOk_ne_empty ha.2), if_pos ha.2, ht]

/-- validateEnv is idempotent on its own successful output. -/
theorem validateEnv_idem {env l : List String}
    (h : validateEnv env = .ok l) : validateEnv l = .ok l := by
  unfold validateEnv at h ⊢
  by_cases hc : env = []
  · rw [if_pos hc] at h
    simp at h
    simp [← h]
  · rw [if_neg hc] at h
    by_cases hl : l = []
    · simp [hl]
    · rw [if_neg hl]
      exact validateEnvLoop_of_clean (validateEnvLoop_ok_elems h)

theorem validateEnvLoop_ok_value :
    ∀ {env l : List String}, validateEnvLoop env = .ok l →
      l = (env.map trimSpace).filter (fun s => s != "") := by
  intro env
  induction env with
  | nil => intro l h; simp [validateEnvLoop] at h; simp [h]
  | cons entry rest ih =>
    intro l h
    simp only [validateEnvLoop] at h
    by_cases hb : trimSpace entry = ""
    · rw [if_pos hb] at h
      have := ih h
      simp [hb, this]
    · rw [if_neg hb] at h
      by_cases hok : envEntryOk (trimSpace entry) = true
      · rw [if_pos hok] at h
        cases hr : validateEnvLoop rest with
        | ok clean =>
          rw [hr] at h
          simp at h
          rw [← h, ih hr]
          simp [hb]
        | error e => rw [hr] at h; simp at h
      · rw [if_neg hok] at h
        simp at h

theorem validateEnvLoop_ok_of_all_good :
    ∀ {env : List String}, (∀ e ∈ env, trimSpace e ≠ "" → envEntryOk (trimSpace e) = true) →
      validateEnvLoop env = .ok ((env.map trimSpace).filter (fun s => s != "")) := by
  intro env
  induction env with
  | nil => intro _; rfl
  | cons entry rest ih =>
    intro h
    have ht := ih (fun e he => h e (List.mem_cons_of_mem entry he))
    by_cases hb : trimSpace entry = ""
    · simp only [validateEnvLoop, if_pos hb, ht]
      simp [hb]
    · have hok := h entry (by simp) hb
      simp only [validateEnvLoop, if_neg hb, if_pos hok, ht]
      simp [hb]

theorem validateEnvLoop_error_of_bad :
    ∀ {env : List String},
      (∃ e ∈ env, trimSpace e ≠ "" ∧ envEntryOk (trimSpace e) = false) →
      ∃ msg, validateEnvLoop env = .error msg := by
  intro env
  induction env with
  | nil => intro h; simp at h
  | cons entry rest ih =>
    intro h
    by_cases hb : trimSpace entry = ""
    · obtain ⟨e, he, hne, hbad⟩ := h
      have her : e ∈ rest := by
        cases he with
        | head => exact absurd hb hne
        | tail _ hmem => exact hmem
      obtain ⟨msg, hmsg⟩ := ih ⟨e, her, hne, hbad⟩
      exact ⟨msg, by simp [validateEnvLoop, if_pos hb, hmsg]⟩
    · by_cases hok : envEntryOk (trimSpace entry) = true
      · obtain ⟨e, he, hne, hbad⟩ := h
        have her : e ∈ rest := by
          cases he with
          | head => rw [hbad] at hok; simp at hok
          | tail _ hmem => exact hmem
        obtain ⟨msg, hmsg⟩ := ih ⟨e, her, hne, hbad⟩
        refine ⟨msg, ?_⟩
        simp only [validateEnvLoop, if_neg hb, if_pos hok, hmsg]
      · refine ⟨"env entries must be KEY=VALUE, got " ++ entry, ?_⟩
        simp only [validateEnvLoop, if_neg hb]
        rw [if_neg hok]

/-! ## The persisted entity and its JSON encoding

storedConfig is the struct both servers share.  encoding/json is external
library code; it is modelled at the level of a JSON value tree: MarshalIndent
produces the tree below (omitempty drops an empty string field and an empty
slice field), Unmarshal reads a tree back into the struct (an absent field
keeps the zero value, a field of the wrong shape is an error, a null decodes
as the zero value). -/

structure StoredConfig where
  command : List String
  workingDir : String
  env : List String
  updatedAt : String
  deriving DecidableEq, Repr

/-- A JSON value tree. -/
inductive Jx where
  | str (s : String)
  | arr (elems : List Jx)
  | obj (fields : List (String × Jx))
  | jnull

/-- Field lookup in a JSON object.  The marshaller below never emits a
duplicate key, so first match and last match agree. -/
def getField : List (String × Jx) → String → Option Jx
  | [], _ => none
  | (k2, v) :: rest, k => if k2 = k then some v else getField rest k

/-- json.MarshalIndent of storedConfig: command always present,
working_dir / env / updated_at dropped when empty (omitempty). -/
def marshalConfig (c : StoredConfig) : Jx :=
  Jx.obj ([("command", Jx.arr (c.command.map Jx.str))]
    ++ (if c.workingDir = "" then [] else [("working_dir", Jx.str c.workingDir)])
    ++ (if c.env = [] then [] else [("env", Jx.arr (c.env.map Jx.str))])
    ++ (if c.updatedAt = "" then [] else [("updated_at", Jx.str c.updatedAt)]))

/-- Unmarshal a JSON value into a Go string: null keeps the zero value. -/
def jxToStr : Jx → Except String String
  | .str s => .ok s
  | .jnull => .ok ""
  | _ => .error "cannot unmarshal value into string"

/-- Unmarshal a list of JSON values into Go strings, failing on the first
value of the wrong shape. -/
def jxStrs : List Jx → Except String (List String)
  | [] => .ok []
  | j :: rest =>
    match jxToStr j with
    | .error e => .error e
    | .ok s =>
      match jxStrs rest with
      | .error e => .error e
      | .ok l => .ok (s :: l)

/-- Unmarshal a JSON value into a Go []string: null keeps the zero value. -/
def jxToStrList : Jx → Except String (List String)
  | .arr es => jxStrs es
  | .jnull => .ok []
  | _ => .error "cannot unmarshal value into []string"

/-- Decode an optional string field: absent keeps the zero value. -/
def decodeStrField (fields : List (String × Jx)) (k : String) : Except String String :=
  match getField fields k with
  | none => .ok ""
  | some v => jxToStr v

/-- Decode an optional []string field: absent keeps the zero value. -/
def decodeStrListField (fields : List (String × Jx)) (k : String) :
    Except String (List String) :=
  match getField fields k with
  | none => .ok []
  | some v => jxToStrList v

/-- json.Unmarshal of a value tree into storedConfig. -/
def unmarshalConfig : Jx → Except String StoredConfig
  | .obj fields =>
    match decodeStrListField fields "command" with
    | .error e => .error e
    | .ok command =>
      match decodeStrField fields "working_dir" with
      | .error e => .error e
      | .ok workingDir =>
        match decodeStrListField fields "env" with
        | .error e => .error e
        | .ok env =>
          match decodeStrField fields "updated_at" with
          | .error e => .error e
          | .ok updatedAt => .ok ⟨command, workingDir, env, updatedAt⟩
  | .jnull => .ok ⟨[], "", [], ""⟩
  | _ => .error "cannot unmarshal value into storedConfig"

theorem jxStrs_map (l : List String) : jxStrs (l.map Jx.str) = .ok l := by
  induction l with
  | nil => rfl
  | cons a t ih => simp [jxStrs, jxToStr, ih]

/-- Round trip: unmarshalling the marshalled config yields the config back. -/
theorem unmarshalConfig_marshalConfig (c : StoredConfig) :
    unmarshalConfig (marshalConfig c) = .ok c := by
  obtain ⟨cc, cw, ce, cu⟩ := c
  by_cases hw : cw = "" <;> by_cases he : ce = [] <;> by_cases hu : cu = "" <;>
    simp [marshalConfig, unmarshalConfig, hw, he, hu, getField,
      decodeStrField, decodeStrListField, jxToStr, jxToStrList, jxStrs_map]

/-! ## Filesystem model and writeConfig

The filesystem is an association list from absolute paths to file contents.
Each fallible OS call inside writeConfig (os.MkdirAll, os.WriteFile,
os.Rename, os.Remove) gets an injected failure bit, with the standard
semantics of these calls on failure: a failed rename moves nothing, a failed
remove deletes nothing, a failed write may leave a partially-written file
behind (os.WriteFile creates with O_CREATE|O_TRUNC and can then fail while
writing). -/

def Fs (α : Type) : Type := List (String × α)

def fsGet {α : Type} : Fs α → String → Option α
  | [], _ => none
  | (k, v) :: rest, p => if k = p then some v else fsGet rest p

def fsRemove {α : Type} : Fs α → String → Fs α
  | [], _ => []
  | (k, v) :: rest, p => if k = p then fsRemove rest p else (k, v) :: fsRemove rest p

def fsSet {α : Type} (fs : Fs α) (p : String) (v : α) : Fs α :=
  (p, v) :: fsRemove fs p

theorem fsGet_fsRemove_same {α : Type} (fs : Fs α) (p : String) :
    fsGet (fsRemove fs p) p = none := by
  induction fs with
  | nil => rfl
  | cons kv rest ih =>
    obtain ⟨k, v⟩ := kv
    by_cases hk : k = p
    · simp only [fsRemove, if_pos hk]
      exact ih
    · simp only [fsRemove, if_neg hk, fsGet]
      exact ih

theorem fsGet_fsRemove_ne {α : Type} (fs : Fs α) (p q : String) (h : p ≠ q) :
    fsGet (fsRemove fs p) q = fsGet fs q := by
  induction fs with
  | nil => rfl
  | cons kv rest ih =>
    obtain ⟨k, v⟩ := kv
    by_cases hk : k = p
    · simp only [fsRemove, if_pos hk, fsGet]
      rw [if_neg (by rw [hk]; exact h)]
      exact ih
    · simp only [fsRemove, if_neg hk, fsGet]
      by_cases hq : k = q
      · rw [if_pos hq, if_pos hq]
      · rw [if_neg hq, if_neg hq]
        exact ih

theorem fsGet_fsSet_same {α : Type} (fs : Fs α) (p : String) (v : α) :
    fsGet (fsSet fs p v) p = some v := by
  simp only [fsSet, fsGet]
  simp

theorem fsGet_fsSet_ne {α : Type} (fs : Fs α) (p q : String) (v : α) (h : p ≠ q) :
    fsGet (fsSet fs p v) q = fsGet fs q := by
  simp only [fsSet, fsGet]
  rw [if_neg h]
  exact fsGet_fsRemove_ne fs p q h

/-- A path never equals the sibling temp path derived from it. -/
theorem path_ne_tmp (path : String) : path ≠ path ++ ".tmp" := by
  intro h
  have hlen := congrArg String.length h
  rw [String.length_append] at hlen
  have h4 : (".tmp" : String).length = 4 := rfl
  rw [h4] at hlen
  omega

/-- Failure oracle for one writeConfig call: one bit per fallible OS call in
source order (os.MkdirAll, os.WriteFile of the temp file, the first
os.Rename, the fallback os.Remove of the destination, the retried os.Rename,
and the final os.Remove of the temp file, whose error the source discards). -/
structure WriteFailures where
  mkdirFails : Bool
  writeFails : Bool
  leavesTmp : Bool
  rename1Fails : Bool
  removeDestFails : Bool
  rename2Fails : Bool
  removeTmpFails : Bool
  deriving DecidableEq, Repr

/-- Outcome of writeConfig: the filesystem afterwards and the error, if any. -/
structure WcResult (α : Type) where
  fs : Fs α
  err : Option String

/-- writeConfig: serialize (MarshalIndent of this struct cannot fail), create
the config directory, write a sibling temp file, rename it over the target;
on a rename failure remove the destination and retry the rename once, and if
the retry fails too, remove the temp file (best effort: the source discards
the error of this remove, so on its failure the temp file survives while the
reported error is unchanged) and report the rename error.
tmpLeftover is the partial content a failed os.WriteFile may leave behind. -/
def writeConfigModel {α : Type} (f : WriteFailures) (fs : Fs α) (path : String)
    (data : α) (tmpLeftover : α) : WcResult α :=
  if f.mkdirFails then ⟨fs, some "failed to create config dir"⟩
  else
    let tmp := path ++ ".tmp"
    if f.writeFails then
      ⟨if f.leavesTmp then fsSet fs tmp tmpLeftover else fs,
        some "failed to write temp config"⟩
    else
      let fs1 := fsSet fs tmp data
      if f.rename1Fails then
        let fs2 := if f.removeDestFails then fs1 else fsRemove fs1 path
        if f.rename2Fails then
          ⟨if f.removeTmpFails then fs2 else fsRemove fs2 tmp,
            some "failed to move config into place"⟩
        else
          ⟨fsSet (fsRemove fs2 tmp) path data, none⟩
      else
        ⟨fsSet (fsRemove fs1 tmp) path data, none⟩

/-- On success the target path holds exactly the written data. -/
theorem writeConfigModel_ok_get {α : Type} (f : WriteFailures) (fs : Fs α)
    (path : String) (data tmpLeftover : α)
    (h : (writeConfigModel f fs path data tmpLeftover).err = none) :
    fsGet (writeConfigModel f fs path data tmpLeftover).fs path = some data := by
  unfold writeConfigModel at h ⊢
  by_cases h1 : f.mkdirFails
  · simp [h1] at h
  · rw [if_neg h1] at h ⊢
    by_cases h2 : f.writeFails
    · simp [h2] at h
    · rw [if_neg h2] at h ⊢
      by_cases h3 : f.rename1Fails
      · rw [if_pos h3] at h ⊢
        by_cases h4 : f.rename2Fails
        · simp [h4] at h
        · rw [if_neg h4]
          exact fsGet_fsSet_same _ path data
      · rw [if_neg h3]
        exact fsGet_fsSet_same _ path data

/-! ## The Registrar: register_test_command -/

/-- Result of an os.Stat call, as the registration and load paths use it. -/
inductive StatResult where
  | notFound
  | file
  | dir
  deriving DecidableEq, Repr

/-- Typed arguments of register_test_command. -/
structure RegisterArgs where
  command : List String
  workingDir : String
  env : List String
  deriving DecidableEq, Repr

/-- Typed result of register_test_command. -/
structure RegisterResultM where
  configPath : String
  command : List String
  workingDir : String
  env : List String
  updatedAt : String
  message : String
  deriving DecidableEq, Repr

/-- Validation phase of the register handler, in source order: command, env,
then working_dir via os.Stat; on success the storedConfig to persist, with
the current UTC RFC 3339 timestamp passed in as now. -/
def registerCore (stat : String → StatResult) (now : String) (args : RegisterArgs) :
    Except String StoredConfig :=
  match validateCommand args.command with
  | .error e => .error e
  | .ok command =>
    match validateEnv args.env with
    | .error e => .error e
    | .ok env =>
      if args.workingDir ≠ "" then
        match stat args.workingDir with
        | .notFound => .error "working_dir does not exist"
        | .file => .error ("working_dir is not a directory: " ++ args.workingDir)
        | .dir => .ok ⟨command, args.workingDir, env, now⟩
      else .ok ⟨command, args.workingDir, env, now⟩

/-- The register handler: validate, then persist via writeConfig at the
resolved config path (path resolution itself is environmental and passed in),
then echo the persisted spec.  Returns the filesystem afterwards and either
the error or the tool result. -/
def registerTool (stat : String → StatResult) (now : String) (f : WriteFailures)
    (fs : Fs Jx) (cfgPath : String) (args : RegisterArgs) :
    Fs Jx × Except String RegisterResultM :=
  match registerCore stat now args with
  | .error e => (fs, .error e)
  | .ok cfg =>
    let w := writeConfigModel f fs cfgPath (marshalConfig cfg) Jx.jnull
    match w.err with
    | some e => (w.fs, .error e)
    | none =>
      (w.fs, .ok
        { configPath := cfgPath
          command := cfg.command
          workingDir := cfg.workingDir
          env := cfg.env
          updatedAt := cfg.updatedAt
          message := "Test command registered. The test-verifier MCP can now run tests." })

/-! ## The Verifier: loadConfig -/

/-- loadConfig of the verifier: read the config file, unmarshal it, then
re-apply the registration validation rules (command, env, working_dir). -/
def loadConfigModel (stat : String → StatResult) (fs : Fs Jx) (path : String) :
    Except String StoredConfig :=
  match fsGet fs path with
  | none => .error "failed to read config"
  | some j =>
    match unmarshalConfig j with
    | .error e => .error ("failed to parse config: " ++ e)
    | .ok cfg =>
      match validateCommand cfg.command with
      | .error e => .error ("invalid command in config: " ++ e)
      | .ok command =>
        match validateEnv cfg.env with
        | .error e => .error ("invalid env in config: " ++ e)
        | .ok env =>
          let cfg2 : StoredConfig := { cfg with command := command, env := env }
          if cfg2.workingDir ≠ "" then
            match stat cfg2.workingDir with
            | .notFound => .error "working_dir does not exist"
            | .file => .error ("working_dir is not a directory: " ++ cfg2.workingDir)
            | .dir => .ok cfg2
          else .ok cfg2

/-! ## The Verifier: run_tests -/

/-- Typed arguments of run_tests. -/
structure RunArgs where
  extraArgs : List String
  timeoutSeconds : Int
  env : List String
  deriving DecidableEq, Repr

/-- Typed result of run_tests. -/
structure RunResultM where
  configPath : String
  command : List String
  workingDir : String
  exitCode : Int
  durationMs : Int
  stdout : String
  stderr : String
  success : Bool
  timedOut : Bool
  error : String
  updatedAt : String
  deriving DecidableEq, Repr

/-- The error cmd.Wait returned, when it returned one: either an
exec.ExitError carrying the exit code the runtime reports for the process
(negative for a killed process), or another error with a message. -/
inductive WaitErr where
  | exitError (code : Int)
  | other (msg : String)
  deriving DecidableEq, Repr

/-- What the child-process execution observed, supplied as an oracle: the
start error if cmd.Start failed, otherwise the Wait outcome, whether the run
context deadline had been exceeded, the exit code ProcessState reports when
Wait returned no error, and the captured streams and wall-clock duration. -/
structure ExecOutcome where
  startErr : Option String
  waitErr : Option WaitErr
  deadlineExceeded : Bool
  processStatePresent : Bool
  exitCodeOnSuccess : Int
  stdoutStr : String
  stderrStr : String
  durationMs : Int
  deriving DecidableEq, Repr

/-- The tool-call response: the human-readable summary text and the IsError
flag. -/
structure ToolResponse where
  text : String
  isErrorFlag : Bool
  deriving DecidableEq, Repr

/-- Effective timeout: the caller value when positive, else the fixed
600-second default. -/
def effectiveTimeout (t : Int) : Int :=
  if t ≤ 0 then 600 else t

/-- Extra-args handling of the run handler: validate extra_args with the
shared command validator, but report the validation error only when the
caller supplied at least one entry; then the effective command line is the
stored command copied and, when any extra args survived, extended by them. -/
def buildCmdline (cfgCommand rawExtra : List String) : Except String (List String) :=
  let v := validateCommand rawExtra
  match v, rawExtra with
  | .error e, _ :: _ => .error ("extra_args: " ++ e)
  | _, _ =>
    let extraArgs := match v with | .ok l => l | .error _ => []
    .ok (cfgCommand ++ (if extraArgs.length > 0 then extraArgs else []))

/-- Child environment construction: left untouched (inherit the parent
process environment) when neither the config nor the caller adds entries,
otherwise the parent environment, then the config entries, then the caller
entries, in that order. -/
def runChildEnv (parentEnv cfgEnv runEnv : List String) : List String :=
  if cfgEnv.length > 0 || runEnv.length > 0 then (parentEnv ++ cfgEnv) ++ runEnv
  else parentEnv

/-- The structured result built when cmd.Start itself fails: sentinel exit
code -1, no success, the error text of the start error. -/
def startFailResult (cfgPath : String) (cfg : StoredConfig) (cmdline : List String)
    (o : ExecOutcome) (msg : String) : RunResultM :=
  { configPath := cfgPath
    command := cmdline
    workingDir := cfg.workingDir
    exitCode := -1
    durationMs := o.durationMs
    stdout := o.stdoutStr
    stderr := o.stderrStr
    success := false
    timedOut := false
    error := msg
    updatedAt := cfg.updatedAt }

/-- The structured result built after cmd.Wait returned: the success result,
refined by the Wait error when there is one (timeout flag and message when
the run context deadline was exceeded, exit code from the exec.ExitError,
else sentinel -1 and the error text when none was set yet), or by the
ProcessState exit code when Wait returned no error. -/
def waitResult (cfgPath : String) (cfg : StoredConfig) (cmdline : List String)
    (timeoutSeconds : Int) (o : ExecOutcome) : RunResultM :=
  let base : RunResultM :=
    { configPath := cfgPath
      command := cmdline
      workingDir := cfg.workingDir
      exitCode := 0
      durationMs := o.durationMs
      stdout := o.stdoutStr
      stderr := o.stderrStr
      success := true
      timedOut := false
      error := ""
      updatedAt := cfg.updatedAt }
  match o.waitErr with
  | some w =>
    let r1 := { base with success := false }
    let r2 :=
      if o.deadlineExceeded then
        { r1 with
          timedOut := true
          error := "timed out after " ++ toString timeoutSeconds ++ " seconds" }
      else r1
    match w with
    | .exitError code => { r2 with exitCode := code }
    | .other msg =>
      let r3 := { r2 with exitCode := -1 }
      if r3.error = "" then { r3 with error := msg } else r3
  | none =>
    if o.processStatePresent then
      let r1 := { base with exitCode := o.exitCodeOnSuccess }
      if r1.exitCode ≠ 0 then { r1 with success := false } else r1
    else base

/-- The one-line human-readable summary of a finished run. -/
def runSummary (timeoutSeconds : Int) (result : RunResultM) : String :=
  if result.timedOut then
    "Test run timed out after " ++ toString timeoutSeconds ++ " seconds."
  else if !result.success && result.exitCode == -1 && result.error != "" then
    "Test run failed to start: " ++ result.error
  else
    "Test run finished with exit code " ++ toString result.exitCode ++ "."

/-- Outcome classification of the run handler, from cmd.Start onwards: the
start-failure response (flagged IsError) or the Wait outcome classified,
with the IsError flag set exactly when the exit code is -1 and error text is
present. -/
def classifyRun (cfgPath : String) (cfg : StoredConfig) (cmdline : List String)
    (timeoutSeconds : Int) (o : ExecOutcome) : ToolResponse × RunResultM :=
  match o.startErr with
  | some msg => (⟨msg, true⟩, startFailResult cfgPath cfg cmdline o msg)
  | none =>
    let result := waitResult cfgPath cfg cmdline timeoutSeconds o
    (⟨runSummary timeoutSeconds result,
      result.exitCode == -1 && result.error != ""⟩, result)

/-- Overall result of one run_tests call after the config was loaded: either
an error raised to the framework, or a tool response plus structured result. -/
inductive RunOutcome where
  | raised (msg : String)
  | responded (r : ToolResponse × RunResultM)
  deriving DecidableEq, Repr

/-- The run handler after loadConfig succeeded: extra-args handling, run env
validation, timeout defaulting, then execution and classification. -/
def runToolCore (cfgPath : String) (cfg : StoredConfig) (args : RunArgs)
    (o : ExecOutcome) : RunOutcome :=
  match buildCmdline cfg.command args.extraArgs with
  | .error e => .raised e
  | .ok cmdline =>
    match validateEnv args.env with
    | .error e => .raised e
    | .ok _runEnv =>
      .responded (classifyRun cfgPath cfg cmdline (effectiveTimeout args.timeoutSeconds) o)

/-! ## Helper lemmas for the claim theorems -/

theorem validateCommand_ok_map {cmd l : List String}
    (h : validateCommand cmd = .ok l) : l = cmd.map trimSpace := by
  unfold validateCommand at h
  by_cases hc : cmd = []
  · simp [hc] at h
  · rw [if_neg hc] at h
    exact validateCommandLoop_ok_map h

theorem validateCommand_error_of_bad {cmd : List String}
    (h : cmd = [] ∨ ∃ x ∈ cmd, trimSpace x = "") :
    ∃ e, validateCommand cmd = .error e := by
  by_cases hc : cmd = []
  · exact ⟨"command must contain at least one element", by simp [validateCommand, hc]⟩
  · cases h with
    | inl h0 => exact absurd h0 hc
    | inr hex =>
      obtain ⟨e, he⟩ := validateCommandLoop_error_of_blank hex
      exact ⟨e, by simp [validateCommand, hc, he]⟩

theorem validateCommand_nil :
    validateCommand ([] : List String) = .error "command must contain at least one element" := rfl

theorem buildCmdline_nil (c : List String) : buildCmdline c [] = .ok c := by
  simp [buildCmdline, validateCommand]

theorem buildCmdline_ok_of_valid {raw e : List String} (c : List String)
    (h : validateCommand raw = .ok e) : buildCmdline c raw = .ok (c ++ e) := by
  cases raw with
  | nil => rw [validateCommand_nil] at h; simp at h
  | cons a t =>
    have hmap := validateCommand_ok_map h
    have hne : e.length > 0 := by rw [hmap]; simp
    simp only [buildCmdline, h]
    rw [if_pos hne]

theorem registerCore_ok_fields {stat : String → StatResult} {now : String}
    {args : RegisterArgs} {cfg : StoredConfig}
    (h : registerCore stat now args = .ok cfg) :
    validateCommand args.command = .ok cfg.command ∧
      validateEnv args.env = .ok cfg.env ∧
      cfg.workingDir = args.workingDir ∧ cfg.updatedAt = now := by
  unfold registerCore at h
  cases hvc : validateCommand args.command with
  | error e => rw [hvc] at h; simp at h
  | ok command =>
    rw [hvc] at h
    cases hve : validateEnv args.env with
    | error e => rw [hve] at h; simp at h
    | ok env =>
      rw [hve] at h
      dsimp only at h
      by_cases hwd : args.workingDir ≠ ""
      · rw [if_pos hwd] at h
        cases hst : stat args.workingDir with
        | notFound => rw [hst] at h; simp at h
        | file => rw [hst] at h; simp at h
        | dir =>
          rw [hst] at h
          simp at h
          rw [← h]
          exact ⟨rfl, rfl, rfl, rfl⟩
      · rw [if_neg hwd] at h
        simp at h
        rw [← h]
        exact ⟨rfl, rfl, rfl, rfl⟩

/-- Decomposition of a successful registerTool call. -/
theorem registerTool_ok_parts {stat : String → StatResult} {now : String}
    {f : WriteFailures} {fs : Fs Jx} {cfgPath : String} {args : RegisterArgs}
    {res : RegisterResultM}
    (h : (registerTool stat now f fs cfgPath args).2 = .ok res) :
    ∃ cfg, registerCore stat now args = .ok cfg ∧
      (writeConfigModel f fs cfgPath (marshalConfig cfg) Jx.jnull).err = none ∧
      (registerTool stat now f fs cfgPath args).1 =
        (writeConfigModel f fs cfgPath (marshalConfig cfg) Jx.jnull).fs ∧
      res.command = cfg.command ∧ res.env = cfg.env ∧
      res.workingDir = cfg.workingDir ∧ res.updatedAt = cfg.updatedAt := by
  cases hcore : registerCore stat now args with
  | error e => simp [registerTool, hcore] at h
  | ok cfg =>
    cases hw : (writeConfigModel f fs cfgPath (marshalConfig cfg) Jx.jnull).err with
    | some e => simp [registerTool, hcore, hw] at h
    | none =>
      refine ⟨cfg, rfl, hw, ?_, ?_⟩
      · simp [registerTool, hcore, hw]
      · simp [registerTool, hcore, hw] at h
        rw [← h]
        exact ⟨rfl, rfl, rfl, rfl⟩

/-- The exit code the runtime reports through the Wait error. -/
def waitErrExitCode : WaitErr → Int
  | .exitError code => code
  | .other _ => -1

theorem timeoutMsg_ne_empty (x : String) :
    ("timed out after " ++ x ++ " seconds" : String) ≠ "" := by
  intro h
  have hlen := congrArg String.length h
  rw [String.length_append, String.length_append] at hlen
  have h1 : ("timed out after " : String).length = 16 := rfl
  have h2 : (" seconds" : String).length = 8 := rfl
  have h3 : ("" : String).length = 0 := rfl
  rw [h1, h2, h3] at hlen
  omega

/-! ## Environment lookup (os/exec: the last entry for a key wins) -/

/-- Key part of a KEY=VALUE entry. -/
def envKey (e : String) : String :=
  String.mk (e.data.takeWhile (fun c => c ≠ '='))

/-- Value part of a KEY=VALUE entry. -/
def envVal (e : String) : String :=
  String.mk ((e.data.dropWhile (fun c => c ≠ '=')).drop 1)

def orElseO {α : Type} : Option α → Option α → Option α
  | some v, _ => some v
  | none, b => b

/-- The value the child process observes for key k under the os/exec rule
that with duplicate keys only the last entry in the slice is used. -/
def lookupEnvLast : List String → String → Option String
  | [], _ => none
  | e :: rest, k =>
    orElseO (lookupEnvLast rest k) (if envKey e = k then some (envVal e) else none)

theorem orElseO_none_right {α : Type} (x : Option α) : orElseO x none = x := by
  cases x <;> rfl

theorem orElseO_assoc {α : Type} (x y z : Option α) :
    orElseO (orElseO x y) z = orElseO x (orElseO y z) := by
  cases x <;> cases y <;> rfl

theorem lookupEnvLast_append (a b : List String) (k : String) :
    lookupEnvLast (a ++ b) k = orElseO (lookupEnvLast b k) (lookupEnvLast a k) := by
  induction a with
  | nil => simp [lookupEnvLast, orElseO_none_right]
  | cons e t ih =>
    simp only [List.cons_append, lookupEnvLast, List.append_eq, ih, orElseO_assoc]

/-! ## Claim theorems -/

/-- C1, counterexample: the claim fails on the code in both of its parts.
With a prior config "old" at "cfg", a failing first rename, a successful
destination remove and a failing retried rename, writeConfig reports an
IOError yet the prior file is no longer on disk (the fallback removed the
destination before the failed retry).  And the temporary file is not always
removed on failure: a failed temp-file write returns without any cleanup, so
a partial temp file can remain, and in the rename-retry failure path the
final remove of the temp file has its error discarded, so when that remove
fails the temp file survives with the new data. -/
theorem writeConfig_prior_config_lost :
    (((writeConfigModel ⟨false, false, false, true, false, true, false⟩
        ([("cfg", "old")] : Fs String) "cfg" "new" "").err.isSome = true) ∧
      fsGet ([("cfg", "old")] : Fs String) "cfg" = some "old" ∧
      fsGet (writeConfigModel ⟨false, false, false, true, false, true, false⟩
        ([("cfg", "old")] : Fs String) "cfg" "new" "").fs "cfg" = none) ∧
    (((writeConfigModel ⟨false, true, true, false, false, false, false⟩
        ([] : Fs String) "cfg" "new" "part").err.isSome = true) ∧
      fsGet (writeConfigModel ⟨false, true, true, false, false, false, false⟩
        ([] : Fs String) "cfg" "new" "part").fs ("cfg" ++ ".tmp") = some "part") ∧
    (((writeConfigModel ⟨false, false, false, true, false, true, true⟩
        ([] : Fs String) "cfg" "new" "").err.isSome = true) ∧
      fsGet (writeConfigModel ⟨false, false, false, true, false, true, true⟩
        ([] : Fs String) "cfg" "new" "").fs ("cfg" ++ ".tmp") = some "new") := by
  exact ⟨⟨rfl, rfl, rfl⟩, ⟨rfl, rfl⟩, ⟨rfl, rfl⟩⟩

/-- C1, amended: for every registration whose persistence step fails with an
IOError, the config file at the target path is never a partially-written
intermediate: it still holds its prior contents, or (when the rename
fallback removed the destination before a failed retry) no file at all; the
temporary file is removed only in the rename-retry failure path and only as
far as the ignored final remove succeeds, so after a temp-file write
failure, or when that final remove itself fails, a temporary file may
remain. -/
theorem writeConfig_failure_effects {α : Type} (f : WriteFailures) (fs : Fs α)
    (path : String) (data tmpLeftover : α)
    (htmp : fsGet fs (path ++ ".tmp") = none)
    (herr : (writeConfigModel f fs path data tmpLeftover).err.isSome = true) :
    (fsGet (writeConfigModel f fs path data tmpLeftover).fs path = fsGet fs path ∨
      fsGet (writeConfigModel f fs path data tmpLeftover).fs path = none) ∧
    (f.writeFails = false → f.removeTmpFails = false →
      fsGet (writeConfigModel f fs path data tmpLeftover).fs (path ++ ".tmp") = none) := by
  have hne : path ≠ path ++ ".tmp" := path_ne_tmp path
  have hne2 : (path ++ ".tmp") ≠ path := fun h => hne h.symm
  unfold writeConfigModel at herr ⊢
  by_cases h1 : f.mkdirFails
  · rw [if_pos h1]
    exact ⟨Or.inl rfl, fun _ _ => htmp⟩
  · rw [if_neg h1] at herr ⊢
    by_cases h2 : f.writeFails
    · rw [if_pos h2]
      constructor
      · by_cases h3 : f.leavesTmp
        · rw [if_pos h3]
          exact Or.inl (fsGet_fsSet_ne fs (path ++ ".tmp") path tmpLeftover hne2)
        · rw [if_neg h3]
          exact Or.inl rfl
      · intro hcontra _
        rw [h2] at hcontra
        simp at hcontra
    · rw [if_neg h2] at herr ⊢
      by_cases h3 : f.rename1Fails
      · rw [if_pos h3] at herr ⊢
        by_cases h4 : f.rename2Fails
        · rw [if_pos h4]
          by_cases h6 : f.removeTmpFails
          · rw [if_pos h6]
            constructor
            · by_cases h5 : f.removeDestFails
              · rw [if_pos h5]
                exact Or.inl (fsGet_fsSet_ne fs (path ++ ".tmp") path data hne2)
              · rw [if_neg h5]
                exact Or.inr (fsGet_fsRemove_same _ path)
            · intro _ hrt
              rw [h6] at hrt
              simp at hrt
          · rw [if_neg h6]
            constructor
            · by_cases h5 : f.removeDestFails
              · rw [if_pos h5]
                refine Or.inl ?_
                rw [fsGet_fsRemove_ne _ (path ++ ".tmp") path hne2]
                exact fsGet_fsSet_ne fs (path ++ ".tmp") path data hne2
              · rw [if_neg h5]
                refine Or.inr ?_
                rw [fsGet_fsRemove_ne _ (path ++ ".tmp") path hne2]
                exact fsGet_fsRemove_same _ path
            · intro _ _
              exact fsGet_fsRemove_same _ (path ++ ".tmp")
        · rw [if_neg h4] at herr
          simp at herr
      · rw [if_neg h3] at herr
        simp at herr

/-- C1, witness for the amended theorem: a concrete failing registration (the
config directory cannot be created) on an empty filesystem. -/
theorem writeConfig_failure_effects_witness :
    (fsGet ([] : Fs String) ("cfg" ++ ".tmp") = none ∧
      (writeConfigModel ⟨true, false, false, false, false, false, false⟩
        ([] : Fs String) "cfg" "new" "").err.isSome = true) ∧
    ((fsGet (writeConfigModel ⟨true, false, false, false, false, false, false⟩
          ([] : Fs String) "cfg" "new" "").fs "cfg" = fsGet ([] : Fs String) "cfg" ∨
        fsGet (writeConfigModel ⟨true, false, false, false, false, false, false⟩
          ([] : Fs String) "cfg" "new" "").fs "cfg" = none) ∧
      ((⟨true, false, false, false, false, false, false⟩ : WriteFailures).writeFails = false →
        (⟨true, false, false, false, false, false, false⟩ :
            WriteFailures).removeTmpFails = false →
        fsGet (writeConfigModel ⟨true, false, false, false, false, false, false⟩
          ([] : Fs String) "cfg" "new" "").fs ("cfg" ++ ".tmp") = none)) :=
  ⟨⟨rfl, rfl⟩,
    writeConfig_failure_effects ⟨true, false, false, false, false, false, false⟩
      ([] : Fs String) "cfg" "new" "" rfl rfl⟩

/-- C8, counterexample: the claim says register fails with a ValidationError
exactly when the command is empty or has a blank element, but a register call
with the perfectly valid command ["echo"] still fails when the env list holds
a malformed entry, so the failure condition is not exact. -/
theorem register_fails_with_valid_command :
    validateCommand ["echo"] = .ok ["echo"] ∧
    (registerTool (fun _ => StatResult.dir) "t" ⟨false, false, false, false, false, false, false⟩
        ([] : Fs Jx) "p" ⟨["echo"], "", ["bad"]⟩).2 =
      .error "env entries must be KEY=VALUE, got bad" := by
  exact ⟨rfl, rfl⟩

/-- C8, amended: register fails with a ValidationError, writing no file,
whenever the command sequence is empty or some element is blank after
trimming (though it can also fail for a malformed env entry or a bad
working directory); on success the persisted command is the element-wise
trimmed input with length and order preserved, and the result echoes it. -/
theorem register_command_validation (stat : String → StatResult) (now : String)
    (f : WriteFailures) (fs : Fs Jx) (cfgPath : String) (args : RegisterArgs) :
    ((args.command = [] ∨ ∃ x ∈ args.command, trimSpace x = "") →
      (registerTool stat now f fs cfgPath args).1 = fs ∧
        ∃ e, (registerTool stat now f fs cfgPath args).2 = .error e) ∧
    (∀ res, (registerTool stat now f fs cfgPath args).2 = .ok res →
      res.command = args.command.map trimSpace ∧
        ∃ cfg, fsGet (registerTool stat now f fs cfgPath args).1 cfgPath =
            some (marshalConfig cfg) ∧ cfg.command = res.command) := by
  constructor
  · intro hbad
    obtain ⟨e, he⟩ := validateCommand_error_of_bad hbad
    have hcore : registerCore stat now args = .error e := by
      unfold registerCore
      rw [he]
    simp [registerTool, hcore]
  · intro res hok
    obtain ⟨cfg, hcore, hw, hfs, hcmd, _henv, _hwd, _hts⟩ := registerTool_ok_parts hok
    obtain ⟨hvc, _hve, _, _⟩ := registerCore_ok_fields hcore
    constructor
    · rw [hcmd]
      exact validateCommand_ok_map hvc
    · refine ⟨cfg, ?_, hcmd.symm⟩
      rw [hfs]
      exact writeConfigModel_ok_get f fs cfgPath (marshalConfig cfg) Jx.jnull hw

/-- C2: after every successful register call, the config file on disk
unmarshals as a storedConfig and passes the load-time validation of command
and env that the verifier re-applies (the same rules the registrar used), so
a load of a registrar-written file succeeds, provided the working directory,
if one was set, still resolves to a directory at load time; the loaded spec
agrees with what register echoed. -/
theorem register_then_load_ok (stat stat2 : String → StatResult) (now : String)
    (f : WriteFailures) (fs : Fs Jx) (cfgPath : String) (args : RegisterArgs)
    (res : RegisterResultM)
    (hreg : (registerTool stat now f fs cfgPath args).2 = .ok res)
    (hwd2 : args.workingDir ≠ "" → stat2 args.workingDir = StatResult.dir) :
    ∃ cfg, loadConfigModel stat2 (registerTool stat now f fs cfgPath args).1 cfgPath =
        .ok cfg ∧
      cfg.command = res.command ∧ cfg.env = res.env ∧
      cfg.workingDir = args.workingDir := by
  obtain ⟨cfg, hcore, hw, hfs, hcmd, henv, hwd, _hts⟩ := registerTool_ok_parts hreg
  obtain ⟨hvc, hve, hcwd, _⟩ := registerCore_ok_fields hcore
  have hget : fsGet (registerTool stat now f fs cfgPath args).1 cfgPath =
      some (marshalConfig cfg) := by
    rw [hfs]
    exact writeConfigModel_ok_get f fs cfgPath (marshalConfig cfg) Jx.jnull hw
  have hvc2 : validateCommand cfg.command = .ok cfg.command := validateCommand_idem hvc
  have hve2 : validateEnv cfg.env = .ok cfg.env := validateEnv_idem hve
  refine ⟨cfg, ?_, hcmd.symm, henv.symm, hcwd⟩
  unfold loadConfigModel
  rw [hget]
  dsimp only
  rw [unmarshalConfig_marshalConfig]
  dsimp only
  rw [hvc2]
  dsimp only
  rw [hve2]
  dsimp only
  by_cases hwdne : cfg.workingDir ≠ ""
  · rw [if_pos hwdne]
    have : stat2 cfg.workingDir = StatResult.dir := by
      rw [hcwd]
      exact hwd2 (by rw [← hcwd]; exact hwdne)
    rw [this]
  · rw [if_neg hwdne]

/-- C2, witness: a concrete successful registration of ["echo", "hi"] with
one env entry on an empty filesystem, loaded back successfully. -/
theorem register_then_load_ok_witness :
    ((registerTool (fun _ => StatResult.dir) "t" ⟨false, false, false, false, false, false, false⟩
        ([] : Fs Jx) "p" ⟨["echo", "hi"], "", ["A=b"]⟩).2 =
      .ok { configPath := "p"
            command := ["echo", "hi"]
            workingDir := ""
            env := ["A=b"]
            updatedAt := "t"
            message := "Test command registered. The test-verifier MCP can now run tests." }) ∧
    (∃ cfg, loadConfigModel (fun _ => StatResult.dir)
        (registerTool (fun _ => StatResult.dir) "t" ⟨false, false, false, false, false, false, false⟩
          ([] : Fs Jx) "p" ⟨["echo", "hi"], "", ["A=b"]⟩).1 "p" = .ok cfg ∧
      cfg.command =
        ({ configPath := "p"
           command := ["echo", "hi"]
           workingDir := ""
           env := ["A=b"]
           updatedAt := "t"
           message := "Test command registered. The test-verifier MCP can now run tests." } :
          RegisterResultM).command ∧
      cfg.env =
        ({ configPath := "p"
           command := ["echo", "hi"]
           workingDir := ""
           env := ["A=b"]
           updatedAt := "t"
           message := "Test command registered. The test-verifier MCP can now run tests." } :
          RegisterResultM).env ∧
      cfg.workingDir = ("" : String)) :=
  ⟨rfl,
    register_then_load_ok (fun _ => StatResult.dir) (fun _ => StatResult.dir) "t"
      ⟨false, false, false, false, false, false, false⟩ ([] : Fs Jx) "p"
      ⟨["echo", "hi"], "", ["A=b"]⟩ _ rfl (fun h => absurd rfl h)⟩

/-- Helper for C3: the structured result of classifyRun reports exactly the
command line that was executed. -/
theorem classifyRun_command (cfgPath : String) (cfg : StoredConfig)
    (cmdline : List String) (t : Int) (o : ExecOutcome) :
    (classifyRun cfgPath cfg cmdline t o).2.command = cmdline := by
  unfold classifyRun startFailResult waitResult
  cases o.startErr with
  | some msg => rfl
  | none =>
    cases o.waitErr with
    | some w =>
      cases w with
      | exitError code =>
        by_cases hd : o.deadlineExceeded <;> simp [hd]
      | other msg =>
        by_cases hd : o.deadlineExceeded <;> simp [hd] <;> split <;> simp
    | none =>
      by_cases hp : o.processStatePresent <;> simp [hp]
      split <;> simp

/-- C3: for every registered command and every run call, the effective
command line executed is exactly the stored command sequence followed by the
validated (trimmed) extra arguments in caller order; nothing is added,
dropped, or reordered, and a run with no extra args executes exactly the
registered command. -/
theorem run_effective_cmdline (cfgPath : String) (cfg : StoredConfig) (args : RunArgs)
    (o : ExecOutcome) (renv : List String)
    (henv : validateEnv args.env = .ok renv) :
    (∀ e, validateCommand args.extraArgs = .ok e →
      e = args.extraArgs.map trimSpace ∧
        runToolCore cfgPath cfg args o =
          .responded (classifyRun cfgPath cfg (cfg.command ++ e)
            (effectiveTimeout args.timeoutSeconds) o)) ∧
    (args.extraArgs = [] →
      runToolCore cfgPath cfg args o =
        .responded (classifyRun cfgPath cfg cfg.command
          (effectiveTimeout args.timeoutSeconds) o)) ∧
    (∀ cmdline, (classifyRun cfgPath cfg cmdline
        (effectiveTimeout args.timeoutSeconds) o).2.command = cmdline) := by
  refine ⟨?_, ?_, fun cmdline => classifyRun_command cfgPath cfg cmdline _ o⟩
  · intro e he
    refine ⟨validateCommand_ok_map he, ?_⟩
    simp only [runToolCore, buildCmdline_ok_of_valid cfg.command he, henv]
  · intro hnil
    simp only [runToolCore, hnil, buildCmdline_nil, henv]

/-- C3, witness: a run of stored command ["go", "test"] with extra args
[" -v "] and with no extra args. -/
theorem run_effective_cmdline_witness :
    (validateEnv ([] : List String) = .ok [] ∧
      validateCommand [" -v "] = .ok ["-v"]) ∧
    (["-v"] = [" -v "].map trimSpace ∧
      runToolCore "p" ⟨["go", "test"], "", [], "t"⟩ ⟨[" -v "], 0, []⟩
          ⟨none, none, false, true, 0, "ok", "", 5⟩ =
        .responded (classifyRun "p" ⟨["go", "test"], "", [], "t"⟩
          (["go", "test"] ++ ["-v"]) (effectiveTimeout 0)
          ⟨none, none, false, true, 0, "ok", "", 5⟩)) ∧
    runToolCore "p" ⟨["go", "test"], "", [], "t"⟩ ⟨[], 0, []⟩
        ⟨none, none, false, true, 0, "ok", "", 5⟩ =
      .responded (classifyRun "p" ⟨["go", "test"], "", [], "t"⟩ ["go", "test"]
        (effectiveTimeout 0) ⟨none, none, false, true, 0, "ok", "", 5⟩) :=
  ⟨⟨rfl, rfl⟩,
    (run_effective_cmdline "p" ⟨["go", "test"], "", [], "t"⟩ ⟨[" -v "], 0, []⟩
      ⟨none, none, false, true, 0, "ok", "", 5⟩ [] rfl).1 ["-v"] rfl,
    (run_effective_cmdline "p" ⟨["go", "test"], "", [], "t"⟩ ⟨[], 0, []⟩
      ⟨none, none, false, true, 0, "ok", "", 5⟩ [] rfl).2.1 rfl⟩

/-- C4: for every run whose effective timeout (the caller value when
positive, else the 600-second default) elapses before the child exits (the
deadline was exceeded and Wait returned an error), the result is marked
timed out, unsuccessful, carries the exit code the runtime reports for the
killed process, and its error text names the timeout duration in seconds. -/
theorem run_timeout_classified (cfgPath : String) (cfg : StoredConfig)
    (cmdline : List String) (t : Int) (o : ExecOutcome) (w : WaitErr)
    (hse : o.startErr = none) (hwe : o.waitErr = some w)
    (hdl : o.deadlineExceeded = true) :
    (classifyRun cfgPath cfg cmdline (effectiveTimeout t) o).2.timedOut = true ∧
    (classifyRun cfgPath cfg cmdline (effectiveTimeout t) o).2.success = false ∧
    (classifyRun cfgPath cfg cmdline (effectiveTimeout t) o).2.error =
      "timed out after " ++ toString (effectiveTimeout t) ++ " seconds" ∧
    (classifyRun cfgPath cfg cmdline (effectiveTimeout t) o).2.exitCode =
      waitErrExitCode w ∧
    (0 < t → effectiveTimeout t = t) ∧ (t ≤ 0 → effectiveTimeout t = 600) := by
  have heff1 : 0 < t → effectiveTimeout t = t := by
    intro h
    unfold effectiveTimeout
    rw [if_neg (by omega)]
  have heff2 : t ≤ 0 → effectiveTimeout t = 600 := by
    intro h
    unfold effectiveTimeout
    rw [if_pos h]
  obtain ⟨se, we, dl, ps, ec, so, st, d⟩ := o
  dsimp only at hse hwe hdl
  subst hse
  subst hwe
  subst hdl
  refine ⟨?_, ?_, ?_, ?_, heff1, heff2⟩ <;> cases w <;>
    simp [classifyRun, waitResult, waitErrExitCode,
      timeoutMsg_ne_empty (toString (effectiveTimeout t))]

/-- C4, witness: a run with caller timeout 0 (so the 600-second default)
whose process was killed at the deadline with runtime-reported code -1. -/
theorem run_timeout_classified_witness :
    ((⟨none, some (WaitErr.exitError (-1)), true, false, 0, "", "", 600000⟩ :
        ExecOutcome).startErr = none ∧
      (⟨none, some (WaitErr.exitError (-1)), true, false, 0, "", "", 600000⟩ :
        ExecOutcome).waitErr = some (WaitErr.exitError (-1)) ∧
      (⟨none, some (WaitErr.exitError (-1)), true, false, 0, "", "", 600000⟩ :
        ExecOutcome).deadlineExceeded = true) ∧
    ((classifyRun "p" ⟨["go"], "", [], "t"⟩ ["go"] (effectiveTimeout 0)
        ⟨none, some (WaitErr.exitError (-1)), true, false, 0, "", "", 600000⟩).2.timedOut =
      true ∧
    (classifyRun "p" ⟨["go"], "", [], "t"⟩ ["go"] (effectiveTimeout 0)
        ⟨none, some (WaitErr.exitError (-1)), true, false, 0, "", "", 600000⟩).2.success =
      false ∧
    (classifyRun "p" ⟨["go"], "", [], "t"⟩ ["go"] (effectiveTimeout 0)
        ⟨none, some (WaitErr.exitError (-1)), true, false, 0, "", "", 600000⟩).2.error =
      "timed out after " ++ toString (effectiveTimeout 0) ++ " seconds" ∧
    (classifyRun "p" ⟨["go"], "", [], "t"⟩ ["go"] (effectiveTimeout 0)
        ⟨none, some (WaitErr.exitError (-1)), true, false, 0, "", "", 600000⟩).2.exitCode =
      waitErrExitCode (WaitErr.exitError (-1)) ∧
    (0 < (0 : Int) → effectiveTimeout 0 = 0) ∧
    ((0 : Int) ≤ 0 → effectiveTimeout 0 = 600)) :=
  ⟨⟨rfl, rfl, rfl⟩,
    run_timeout_classified "p" ⟨["go"], "", [], "t"⟩ ["go"] 0
      ⟨none, some (WaitErr.exitError (-1)), true, false, 0, "", "", 600000⟩
      (WaitErr.exitError (-1)) rfl rfl rfl⟩

/-- C5: for every run whose child process fails to start, the result has
exit code -1, no success, no timeout flag, and the error text of the start
error (non-empty whenever that error text is non-empty); it is returned as a
normal structured tool response flagged as an error result, not raised. -/
theorem run_start_failure (cfgPath : String) (cfg : StoredConfig) (args : RunArgs)
    (o : ExecOutcome) (renv : List String) (cmdline : List String) (msg : String)
    (henv : validateEnv args.env = .ok renv)
    (hcmd : buildCmdline cfg.command args.extraArgs = .ok cmdline)
    (hse : o.startErr = some msg) (hmsg : msg ≠ "") :
    runToolCore cfgPath cfg args o =
      .responded (⟨msg, true⟩, startFailResult cfgPath cfg cmdline o msg) ∧
    (startFailResult cfgPath cfg cmdline o msg).exitCode = -1 ∧
    (startFailResult cfgPath cfg cmdline o msg).success = false ∧
    (startFailResult cfgPath cfg cmdline o msg).timedOut = false ∧
    (startFailResult cfgPath cfg cmdline o msg).error = msg ∧
    (startFailResult cfgPath cfg cmdline o msg).error ≠ "" := by
  refine ⟨?_, rfl, rfl, rfl, rfl, hmsg⟩
  simp only [runToolCore, hcmd, henv]
  unfold classifyRun
  rw [hse]

/-- C5, witness: a run of a command whose executable does not exist. -/
theorem run_start_failure_witness :
    (validateEnv ([] : List String) = .ok [] ∧
      buildCmdline ["false_command_that_does_not_exist"] [] =
        .ok ["false_command_that_does_not_exist"] ∧
      (⟨some "exec: executable file not found in PATH", none, false, false, 0, "", "", 1⟩ :
        ExecOutcome).startErr = some "exec: executable file not found in PATH" ∧
      ("exec: executable file not found in PATH" : String) ≠ "") ∧
    (runToolCore "p" ⟨["false_command_that_does_not_exist"], "", [], "t"⟩ ⟨[], 0, []⟩
        ⟨some "exec: executable file not found in PATH", none, false, false, 0, "", "", 1⟩ =
      .responded (⟨"exec: executable file not found in PATH", true⟩,
        startFailResult "p" ⟨["false_command_that_does_not_exist"], "", [], "t"⟩
          ["false_command_that_does_not_exist"]
          ⟨some "exec: executable file not found in PATH", none, false, false, 0, "", "", 1⟩
          "exec: executable file not found in PATH") ∧
      (startFailResult "p" ⟨["false_command_that_does_not_exist"], "", [], "t"⟩
          ["false_command_that_does_not_exist"]
          ⟨some "exec: executable file not found in PATH", none, false, false, 0, "", "", 1⟩
          "exec: executable file not found in PATH").exitCode = -1 ∧
      (startFailResult "p" ⟨["false_command_that_does_not_exist"], "", [], "t"⟩
          ["false_command_that_does_not_exist"]
          ⟨some "exec: executable file not found in PATH", none, false, false, 0, "", "", 1⟩
          "exec: executable file not found in PATH").success = false ∧
      (startFailResult "p" ⟨["false_command_that_does_not_exist"], "", [], "t"⟩
          ["false_command_that_does_not_exist"]
          ⟨some "exec: executable file not found in PATH", none, false, false, 0, "", "", 1⟩
          "exec: executable file not found in PATH").timedOut = false ∧
      (startFailResult "p" ⟨["false_command_that_does_not_exist"], "", [], "t"⟩
          ["false_command_that_does_not_exist"]
          ⟨some "exec: executable file not found in PATH", none, false, false, 0, "", "", 1⟩
          "exec: executable file not found in PATH").error =
        "exec: executable file not found in PATH" ∧
      (startFailResult "p" ⟨["false_command_that_does_not_exist"], "", [], "t"⟩
          ["false_command_that_does_not_exist"]
          ⟨some "exec: executable file not found in PATH", none, false, false, 0, "", "", 1⟩
          "exec: executable file not found in PATH").error ≠ "") :=
  ⟨⟨rfl, by simp [buildCmdline_nil], rfl, by decide⟩,
    run_start_failure "p" ⟨["false_command_that_does_not_exist"], "", [], "t"⟩ ⟨[], 0, []⟩
      ⟨some "exec: executable file not found in PATH", none, false, false, 0, "", "", 1⟩
      [] ["false_command_that_does_not_exist"] "exec: executable file not found in PATH"
      rfl (buildCmdline_nil _) rfl (by decide)⟩

/-- C6: the child environment is the parent process environment, then the
stored config env entries, then the caller env entries, appended in that
order (when both extra lists are empty the child simply inherits the parent
environment, which coincides with the same append), so config entries reach
the effective environment verbatim and in registered order, and on a key
collision the later entry wins: caller env over config env over inherited. -/
theorem run_child_env (parentEnv cfgEnv runEnv : List String) :
    runChildEnv parentEnv cfgEnv runEnv = parentEnv ++ cfgEnv ++ runEnv ∧
    (∀ k, lookupEnvLast (runChildEnv parentEnv cfgEnv runEnv) k =
      orElseO (lookupEnvLast runEnv k)
        (orElseO (lookupEnvLast cfgEnv k) (lookupEnvLast parentEnv k))) := by
  have happ : runChildEnv parentEnv cfgEnv runEnv = parentEnv ++ cfgEnv ++ runEnv := by
    unfold runChildEnv
    split
    · rfl
    · rename_i hcond
      simp at hcond
      obtain ⟨h1, h2⟩ := hcond
      rw [h1, h2]
      simp
  refine ⟨happ, fun k => ?_⟩
  rw [happ, lookupEnvLast_append, lookupEnvLast_append]

/-- C7: for every env list validated by the registrar, by the verifier per
run, or at config load (all three run the same validateEnv): entries blank
after trimming are silently dropped; if every remaining entry splits at its
first equals sign into a non-empty key and a possibly-empty value the result
is exactly the trimmed non-blank entries in original order, and otherwise
the validation fails with an error. -/
theorem validateEnv_spec (env : List String) :
    ((∀ e ∈ env, trimSpace e ≠ "" → envEntryOk (trimSpace e) = true) →
      validateEnv env = .ok ((env.map trimSpace).filter (fun s => s != ""))) ∧
    ((∃ e ∈ env, trimSpace e ≠ "" ∧ envEntryOk (trimSpace e) = false) →
      ∃ msg, validateEnv env = .error msg) := by
  constructor
  · intro h
    unfold validateEnv
    by_cases hc : env = []
    · simp [hc]
    · rw [if_neg hc]
      exact validateEnvLoop_ok_of_all_good h
  · intro h
    obtain ⟨e, he, h1, h2⟩ := h
    have hne : env ≠ [] := by
      intro h0
      rw [h0] at he
      simp at he
    unfold validateEnv
    rw [if_neg hne]
    exact validateEnvLoop_error_of_bad ⟨e, he, h1, h2⟩

/-- C9: every run result whose exit code is -1 and whose error text is
non-empty is flagged as an error tool response, whichever path produced it
(start failure, timeout with a killed process reported as -1, or a
post-start wait failure); the flag is not limited to start failures. -/
theorem run_error_flag (cfgPath : String) (cfg : StoredConfig) (cmdline : List String)
    (t : Int) (o : ExecOutcome)
    (hcode : (classifyRun cfgPath cfg cmdline t o).2.exitCode = -1)
    (herr : (classifyRun cfgPath cfg cmdline t o).2.error ≠ "") :
    (classifyRun cfgPath cfg cmdline t o).1.isErrorFlag = true := by
  cases hse : o.startErr with
  | some msg =>
    simp [classifyRun, hse]
  | none =>
    simp only [classifyRun, hse] at hcode herr ⊢
    simp [hcode, herr]

/-- C9, witness: a timed-out run (killed process reported as -1) is flagged
as an error result just like a start failure. -/
theorem run_error_flag_witness :
    ((classifyRun "p" ⟨["go"], "", [], "t"⟩ ["go"] 600
        ⟨none, some (WaitErr.exitError (-1)), true, false, 0, "", "", 600000⟩).2.exitCode =
      -1 ∧
      (classifyRun "p" ⟨["go"], "", [], "t"⟩ ["go"] 600
        ⟨none, some (WaitErr.exitError (-1)), true, false, 0, "", "", 600000⟩).2.error ≠ "") ∧
    (classifyRun "p" ⟨["go"], "", [], "t"⟩ ["go"] 600
        ⟨none, some (WaitErr.exitError (-1)), true, false, 0, "", "", 600000⟩).1.isErrorFlag =
      true :=
  ⟨⟨rfl, by decide⟩,
    run_error_flag "p" ⟨["go"], "", [], "t"⟩ ["go"] 600
      ⟨none, some (WaitErr.exitError (-1)), true, false, 0, "", "", 600000⟩ rfl (by decide)⟩

/-- C10: a run invoked with an empty extra_args list never fails extra-args
validation: the shared command validator does reject an empty sequence, but
the run handler reports that error only when the caller supplied at least
one entry, so with no extra args the effective command line is exactly the
stored command, while a non-empty invalid extra_args list is reported. -/
theorem run_empty_extra_args (c : List String) :
    buildCmdline c [] = .ok c ∧
    (∃ e0, validateCommand ([] : List String) = .error e0) ∧
    (∀ raw e, validateCommand raw = .error e → raw ≠ [] →
      buildCmdline c raw = .error ("extra_args: " ++ e)) := by
  refine ⟨buildCmdline_nil c,
    ⟨"command must contain at least one element", validateCommand_nil⟩, ?_⟩
  intro raw e hv hraw
  cases raw with
  | nil => exact absurd rfl hraw
  | cons a tl => simp [buildCmdline, hv]
